import Mathlib

/-!
Formal model of the embedded agent run pipeline of this repository
(`src/agents/pi-embedded-runner.ts` together with the stream-subscription
module compiled into the same file).  Pure string processing is embedded
over `List Char`; the stateful stream handler becomes an explicit
state-passing step function; external collaborators (the agent session,
the tool debouncer, media splitting, metadata inference) appear only
through the values they hand to the modelled code.
-/

set_option maxRecDepth 4096

/-- The JavaScript character class `\s`, as used by every tag regex in the
source (`THINKING_TAG_RE`, `THINKING_OPEN_RE`, `THINKING_CLOSE_RE`,
`FINAL_START_RE`, `FINAL_END_RE`) and by `String.prototype.trim`. -/
def isJsWs (c : Char) : Bool :=
  let n := c.toNat
  n == 0x20 || n == 0x09 || n == 0x0a || n == 0x0d || n == 0x0b || n == 0x0c ||
  n == 0xa0 || n == 0x1680 || (decide (0x2000 ≤ n) && decide (n ≤ 0x200a)) ||
  n == 0x2028 || n == 0x2029 || n == 0x202f || n == 0x205f || n == 0x3000 ||
  n == 0xfeff

/-- Case folding used to model the `i` regex flag on the ASCII tag words. -/
def lowerChar (c : Char) : Char := c.toLower

/-- Consume a run of `\s` characters (the `\s*` regex pieces). -/
def dropWs : List Char → List Char
  | [] => []
  | c :: cs => if isJsWs c then dropWs cs else c :: cs

/-- Consume a fixed word case-insensitively; `word` is given lowercase. -/
def matchWordCI : List Char → List Char → Option (List Char)
  | [], l => some l
  | _ :: _, [] => none
  | p :: ps, c :: cs => if lowerChar c = p then matchWordCI ps cs else none

/-- Match one tag of the shape `<\s*(\/)?\s*WORD(ing)?\s*>` at the head of
the input and return the remaining characters.  Instantiated below for the
four anchored regexes of the source: `THINKING_OPEN_RE`,
`THINKING_CLOSE_RE` (with `allowIng`), `FINAL_START_RE`, `FINAL_END_RE`
(without). -/
def matchTag (requireSlash : Bool) (word : List Char) (allowIng : Bool)
    (l : List Char) : Option (List Char) :=
  match l with
  | [] => none
  | c :: rest =>
    if c = '<' then
      let r1 := dropWs rest
      let afterSlash : Option (List Char) :=
        if requireSlash then
          match r1 with
          | d :: r => if d = '/' then some (dropWs r) else none
          | [] => none
        else some r1
      match afterSlash with
      | none => none
      | some r2 =>
        match matchWordCI word r2 with
        | none => none
        | some r3 =>
          let r4 := if allowIng then
              match matchWordCI ['i', 'n', 'g'] r3 with
              | some r => r
              | none => r3
            else r3
          match dropWs r4 with
          | d :: r5 => if d = '>' then some r5 else none
          | [] => none
    else none

/-- `THINKING_OPEN_RE = /<\s*think(?:ing)?\s*>/i` anchored at the head. -/
def matchOpenThink (l : List Char) : Option (List Char) :=
  matchTag false ['t', 'h', 'i', 'n', 'k'] true l

/-- `THINKING_CLOSE_RE = /<\s*\/\s*think(?:ing)?\s*>/i` anchored at the head. -/
def matchCloseThink (l : List Char) : Option (List Char) :=
  matchTag true ['t', 'h', 'i', 'n', 'k'] true l

/-- `FINAL_START_RE = /<\s*final\s*>/i` anchored at the head. -/
def matchFinalStartTag (l : List Char) : Option (List Char) :=
  matchTag false ['f', 'i', 'n', 'a', 'l'] false l

/-- `FINAL_END_RE = /<\s*\/\s*final\s*>/i` anchored at the head. -/
def matchFinalEndTag (l : List Char) : Option (List Char) :=
  matchTag true ['f', 'i', 'n', 'a', 'l'] false l

/-- Scan for the first position where the anchored matcher `m` succeeds:
this is `RegExp.exec` for the anchored matchers above.  Returns the
characters before the match and the characters after it. -/
def findSplit (m : List Char → Option (List Char)) :
    List Char → Option (List Char × List Char)
  | [] => none
  | c :: cs =>
    match m (c :: cs) with
    | some rest => some ([], rest)
    | none =>
      match findSplit m cs with
      | some (pre, rest) => some (c :: pre, rest)
      | none => none

/-- `RegExp.test` for an anchored matcher. -/
def containsMatch (m : List Char → Option (List Char)) (l : List Char) : Bool :=
  (findSplit m l).isSome

/-- `String.prototype.replace` with a non-global regex and an empty
replacement: delete the first match, or return the input unchanged when
there is none. -/
def replaceFirst (m : List Char → Option (List Char)) (l : List Char) :
    List Char :=
  match findSplit m l with
  | some (pre, rest) => pre ++ rest
  | none => l

/-- `\s*` with an explicit count of consumed characters (used to know how
long a `THINKING_TAG_RE` match is). -/
def dropWsCount : List Char → Nat × List Char
  | [] => (0, [])
  | c :: cs =>
    if isJsWs c then ((dropWsCount cs).1 + 1, (dropWsCount cs).2)
    else (0, c :: cs)

/-- Case-insensitive word match with an explicit count of consumed
characters. -/
def matchWordCICount : List Char → List Char → Option (Nat × List Char)
  | [], l => some (0, l)
  | _ :: _, [] => none
  | p :: ps, c :: cs =>
    if lowerChar c = p then
      match matchWordCICount ps cs with
      | some (n, r) => some (n + 1, r)
      | none => none
    else none

/-- One match of `THINKING_TAG_RE = /<\s*\/?\s*think(?:ing)?\s*>/gi`
anchored at the head of the input.  Returns whether the tag is a closing
tag (contains `/`) and the total number of characters the match spans. -/
def matchAnyThinkTag (l : List Char) : Option (Bool × Nat) :=
  match l with
  | [] => none
  | c :: rest =>
    if c = '<' then
      let p1 := dropWsCount rest
      let closeInfo : Bool × Nat × List Char :=
        match p1.2 with
        | d :: r =>
          if d = '/' then (true, (dropWsCount r).1 + 1, (dropWsCount r).2)
          else (false, 0, p1.2)
        | [] => (false, 0, [])
      match matchWordCICount ['t', 'h', 'i', 'n', 'k'] closeInfo.2.2 with
      | none => none
      | some p3 =>
        let p4 : Nat × List Char :=
          match matchWordCICount ['i', 'n', 'g'] p3.2 with
          | some q => q
          | none => (0, p3.2)
        let p5 := dropWsCount p4.2
        match p5.2 with
        | d :: _ =>
          if d = '>' then
            some (closeInfo.1, 1 + p1.1 + closeInfo.2.1 + p3.1 + p4.1 + p5.1 + 1)
          else none
        | [] => none
    else none

/-- The scanning loop of `stripThinkingSegments`: walk the text, keep
characters while outside a thinking segment, drop them while inside, and
flip the state at every `THINKING_TAG_RE` match (open tag enters a
thinking segment, close tag leaves it); the span of a matched tag is
always dropped, and a trailing unterminated thinking segment is dropped.
The third argument counts tag characters still to be skipped. -/
def stripGo : List Char → Bool → Nat → List Char
  | [], _, _ => []
  | _ :: cs, inThinking, k + 1 => stripGo cs inThinking k
  | c :: cs, inThinking, 0 =>
    match matchAnyThinkTag (c :: cs) with
    | some (isClose, n) => stripGo cs (!isClose) (n - 1)
    | none =>
      if inThinking then stripGo cs inThinking 0
      else c :: stripGo cs inThinking 0

/-- `stripThinkingSegments` from the source.  The source first returns the
input unchanged when `THINKING_TAG_RE` finds no match; the scan below
yields the input unchanged in that case, so the guard is not repeated. -/
def stripThinkingSegments (s : String) : String :=
  String.mk (stripGo s.data false 0)

/-- `stripUnpairedThinkingTags` from the source: when only one side of a
thinking tag pair occurs in the text, delete the first occurrence of that
lone side; otherwise return the text unchanged. -/
def stripUnpairedThinkingTags (s : String) : String :=
  let l := s.data
  let hasOpen := containsMatch matchOpenThink l
  let hasClose := containsMatch matchCloseThink l
  if hasOpen && hasClose then s
  else if !hasOpen then String.mk (replaceFirst matchCloseThink l)
  else String.mk (replaceFirst matchOpenThink l)

/-- `String.prototype.trim` of JavaScript (strip `\s` from both ends). -/
def jsTrim (s : String) : String :=
  String.mk (((s.data.dropWhile isJsWs).reverse.dropWhile isJsWs).reverse)

/-- `sanitizeFinalText` from the source: with exactly one side of a
`<final>` pair present, delete the first occurrence of that lone side. -/
def sanitizeFinalText (s : String) : String :=
  let l := s.data
  let hasStart := containsMatch matchFinalStartTag l
  let hasEnd := containsMatch matchFinalEndTag l
  if hasStart && !hasEnd then String.mk (replaceFirst matchFinalStartTag l)
  else if !hasStart && hasEnd then String.mk (replaceFirst matchFinalEndTag l)
  else s

/-- `extractFinalText` from the source: sanitize, then return the content
between the first `<final>` and the next `</final>` (or the end of the
text), or `none` when no `<final>` remains after sanitizing. -/
def extractFinalText (s : String) : Option String :=
  let cleaned := (sanitizeFinalText s).data
  match findSplit matchFinalStartTag cleaned with
  | none => none
  | some (_, afterStart) =>
    match findSplit matchFinalEndTag afterStart with
    | some (pre, _) => some (String.mk pre)
    | none => some (String.mk afterStart)

/-- The `cleaned` value computed by the `message_update` handler:
`stripUnpairedThinkingTags` is applied before `stripThinkingSegments`
only when `enforceFinalTag` is set. -/
def cleanedAssistantView (enforceFinalTag : Bool) (deltaBuffer : String) :
    String :=
  if enforceFinalTag then
    stripThinkingSegments (stripUnpairedThinkingTags deltaBuffer)
  else stripThinkingSegments deltaBuffer

/-- The `next` value computed by the `message_update` handler: the cleaned
view, restricted to the extracted final text when `enforceFinalTag` is
set and extraction succeeds, and trimmed. -/
def deriveNextText (enforceFinalTag : Bool) (deltaBuffer : String) : String :=
  let cleaned := cleanedAssistantView enforceFinalTag deltaBuffer
  if enforceFinalTag then
    match extractFinalText cleaned with
    | some t => jsTrim t
    | none => jsTrim cleaned
  else jsTrim cleaned

example : stripThinkingSegments "<think>x</think>Hello" = "Hello" := by decide
example : stripThinkingSegments "a<thinking> x </thinking>b" = "ab" := by decide
example : cleanedAssistantView false "<think>partial... Hello" = "" := by decide
example : cleanedAssistantView true "<think>partial... Hello" = "partial... Hello" := by
  decide
example : deriveNextText true "<final>Hi" = "<final>Hi" := by decide
example : deriveNextText true "Hi</final>" = "Hi</final>" := by decide
example : sanitizeFinalText "<final>Hi" = "Hi" := by decide
example : deriveNextText true "noise<final>Hi</final>more" = "Hi" := by decide
example : deriveNextText true "plain" = "plain" := by decide
example : jsTrim "  hi  " = "hi" := by decide

/-- One entry of a tool result `content` array.  `extra` stands for any
further fields of the JavaScript object, which the sanitizer spreads
through unchanged; `omitted` models the presence of the `omitted: true`
marker field (absent on incoming items). -/
structure ContentItem where
  type : String
  text : Option String
  data : Option String
  bytes : Option Nat
  omitted : Bool
  extra : List (String × String)
deriving DecidableEq

/-- `TOOL_RESULT_MAX_CHARS` from the source. -/
def TOOL_RESULT_MAX_CHARS : Nat := 8000

/-- `truncateToolText` from the source.  JavaScript measures `length` and
slices in UTF-16 code units; the model counts characters, which agrees on
all BMP text. -/
def truncateToolText (t : String) : String :=
  if t.data.length ≤ TOOL_RESULT_MAX_CHARS then t
  else String.mk (t.data.take TOOL_RESULT_MAX_CHARS) ++ "\n…(truncated)…"

/-- The per-item branch of `sanitizeToolResult`: truncate text items,
strip the `data` field of image items (whether or not it is non-empty),
record its length as `bytes` when it was a non-empty string, and mark the
item `omitted`; all other items pass through. -/
def sanitizeItem (it : ContentItem) : ContentItem :=
  if it.type = "text" then
    match it.text with
    | some t => { it with text := some (truncateToolText t) }
    | none => it
  else if it.type = "image" then
    { it with
      data := none
      bytes := match it.data with
        | some d => if d = "" then none else some d.data.length
        | none => none
      omitted := true }
  else it

/-- A tool result object: a `content` array when the field holds one, and
any further fields (`extra`), which pass through unchanged. -/
structure ToolResult where
  content : Option (List ContentItem)
  extra : List (String × String)
deriving DecidableEq

/-- `sanitizeToolResult` from the source (for object results; non-object
results are returned unchanged by the source and are outside this
model). -/
def sanitizeToolResult (r : ToolResult) : ToolResult :=
  match r.content with
  | none => r
  | some items => { r with content := some (items.map sanitizeItem) }

example :
    sanitizeToolResult ⟨some [⟨"image", none, some "abc", none, false, []⟩], []⟩ =
      ⟨some [⟨"image", none, none, some 3, true, []⟩], []⟩ := by decide
example :
    sanitizeItem ⟨"image", none, none, none, false, [("mimeType", "png")]⟩ =
      ⟨"image", none, none, none, true, [("mimeType", "png")]⟩ := by decide
example : sanitizeItem ⟨"text", some "hi", none, none, false, []⟩ =
    ⟨"text", some "hi", none, none, false, []⟩ := by decide

/-- The configuration captured by the subscription closure, after the
source applies its defaults (`blockReplyBreak ?? "text_end"`).  The
callback fields record only whether the optional observer was supplied,
which is all the handler branches on. -/
structure SubscribeParams where
  blockReplyBreak : String
  enforceFinalTag : Bool
  hasOnBlockReply : Bool
  hasOnPartialReply : Bool
  hasOnToolResult : Bool
  verboseLevel : Option String
deriving DecidableEq

/-- One entry of the `toolMetas` array: the tool name of a finished call
paired with the metadata cached at its start (if any). -/
structure ToolMetaEntry where
  toolName : String
  meta : Option String
deriving DecidableEq

/-- The mutable state of one subscription closure
(`subscribeEmbeddedPiSession`): the assistant text accumulator, the tool
call records, and the compaction coordination state.
`hasPendingCompactionPromise` models `compactionRetryPromise != null`. -/
structure InterpState where
  assistantTexts : List String
  toolMetas : List ToolMetaEntry
  toolMetaById : List (String × Option String)
  deltaBuffer : String
  lastStreamedAssistant : Option String
  lastBlockReplyText : Option String
  assistantTextBaseline : Nat
  compactionInFlight : Bool
  pendingCompactionRetry : Nat
  hasPendingCompactionPromise : Bool
deriving DecidableEq

/-- The state of a fresh subscription. -/
def initialInterpState : InterpState :=
  { assistantTexts := []
    toolMetas := []
    toolMetaById := []
    deltaBuffer := ""
    lastStreamedAssistant := none
    lastBlockReplyText := none
    assistantTextBaseline := 0
    compactionInFlight := false
    pendingCompactionRetry := 0
    hasPendingCompactionPromise := false }

/-- `Map.prototype.set`: update in place or append. -/
def setAssoc (m : List (String × Option String)) (k : String)
    (v : Option String) : List (String × Option String) :=
  match m with
  | [] => [(k, v)]
  | (k0, v0) :: rest =>
    if k0 = k then (k, v) :: rest else (k0, v0) :: setAssoc rest k v

/-- `Map.prototype.get` (undefined both when the key is absent and when
the stored value is undefined, as in the source). -/
def getAssoc (m : List (String × Option String)) (k : String) :
    Option String :=
  match m with
  | [] => none
  | (k0, v0) :: rest => if k0 = k then v0 else getAssoc rest k

/-- The session events the subscription handler distinguishes.  For
`message_update` the model carries whether the message role is assistant,
the `assistantMessageEvent.type` string, and the delta/content chunk the
handler coalesces out of the event; for `message_end` it carries the text
`extractAssistantText` (an external helper) produces from the completed
message; for `tool_execution_start` it carries the metadata string
`inferToolMetaFromArgs` (an external helper) infers from the call
arguments. -/
inductive SessionEvent where
  | toolStart (toolName toolCallId : String) (inferredMeta : Option String)
  | toolUpdate (toolName toolCallId : String)
  | toolEnd (toolName toolCallId : String) (isError : Bool)
  | messageUpdate (isAssistant : Bool) (evtType : String) (chunk : String)
  | messageEnd (isAssistant : Bool) (content : String)
  | agentStart
  | compactionStart
  | compactionEnd (willRetry : Bool)
  | agentEnd
deriving DecidableEq

/-- `resetForCompactionRetry` from the source (the debouncer flush it also
performs is an external effect with no interpreter state). -/
def resetForCompactionRetry (s : InterpState) : InterpState :=
  { s with
    assistantTexts := []
    toolMetas := []
    toolMetaById := []
    deltaBuffer := ""
    lastStreamedAssistant := none
    lastBlockReplyText := none
    assistantTextBaseline := 0 }

/-- One step of the subscription handler: the state after processing one
session event.  Log lines, `emitAgentEvent`, observer invocations and the
debouncer are external effects and do not change this state; the early
`return` statements of the handler are reflected in which fields each
branch resets. -/
def stepEvent (p : SubscribeParams) (s : InterpState) (e : SessionEvent) :
    InterpState :=
  match e with
  | .toolStart _ toolCallId inferredMeta =>
    { s with toolMetaById := setAssoc s.toolMetaById toolCallId inferredMeta }
  | .toolUpdate _ _ => s
  | .toolEnd toolName toolCallId _ =>
    { s with
      toolMetas :=
        s.toolMetas ++ [⟨toolName, getAssoc s.toolMetaById toolCallId⟩] }
  | .messageUpdate isAssistant evtType chunk =>
    if isAssistant ∧
        (evtType = "text_delta" ∨ evtType = "text_start" ∨
          evtType = "text_end") then
      let buf := if chunk = "" then s.deltaBuffer else s.deltaBuffer ++ chunk
      let next := deriveNextText p.enforceFinalTag buf
      let streamed :=
        if next ≠ "" ∧ some next ≠ s.lastStreamedAssistant then some next
        else s.lastStreamedAssistant
      if evtType = "text_end" ∧ p.blockReplyBreak = "text_end" then
        if next ≠ "" ∧ s.lastBlockReplyText = some next then
          { s with deltaBuffer := "", lastStreamedAssistant := none }
        else
          { s with
            deltaBuffer := ""
            lastStreamedAssistant := none
            lastBlockReplyText := if next = "" then none else some next
            assistantTexts :=
              if next = "" then s.assistantTexts
              else s.assistantTexts ++ [next] }
      else { s with deltaBuffer := buf, lastStreamedAssistant := streamed }
    else s
  | .messageEnd isAssistant content =>
    if isAssistant then
      let cleaned := cleanedAssistantView p.enforceFinalTag content
      let text :=
        if p.enforceFinalTag ∧ cleaned ≠ "" then
          match extractFinalText cleaned with
          | some t => jsTrim t
          | none => cleaned
        else cleaned
      let texts1 :=
        if s.assistantTexts.length ≤ s.assistantTextBaseline ∧ text ≠ "" then
          s.assistantTexts ++ [text]
        else s.assistantTexts
      if p.blockReplyBreak = "message_end" ∧ text ≠ "" ∧ p.hasOnBlockReply ∧
          s.lastBlockReplyText = some text then
        { s with
          assistantTexts := texts1
          assistantTextBaseline := texts1.length
          deltaBuffer := ""
          lastStreamedAssistant := none }
      else
        { s with
          assistantTexts := texts1
          assistantTextBaseline := texts1.length
          deltaBuffer := ""
          lastStreamedAssistant := none
          lastBlockReplyText := none }
    else s
  | .agentStart => s
  | .compactionStart =>
    { s with compactionInFlight := true, hasPendingCompactionPromise := true }
  | .compactionEnd willRetry =>
    if willRetry then
      resetForCompactionRetry
        { s with
          compactionInFlight := false
          pendingCompactionRetry := s.pendingCompactionRetry + 1
          hasPendingCompactionPromise := true }
    else
      { s with
        compactionInFlight := false
        hasPendingCompactionPromise :=
          if s.pendingCompactionRetry = 0 then false
          else s.hasPendingCompactionPromise }
  | .agentEnd =>
    if 0 < s.pendingCompactionRetry then
      let pending := s.pendingCompactionRetry - 1
      { s with
        pendingCompactionRetry := pending
        hasPendingCompactionPromise :=
          if pending = 0 ∧ s.compactionInFlight = false then false
          else s.hasPendingCompactionPromise }
    else
      { s with
        hasPendingCompactionPromise :=
          if s.compactionInFlight = false then false
          else s.hasPendingCompactionPromise }

/-- Run the subscription handler over a sequence of session events. -/
def runInterpreter (p : SubscribeParams) (events : List SessionEvent) :
    InterpState :=
  events.foldl (stepEvent p) initialInterpState

/-- Several concurrently subscribed runs: each run id owns its own closure
state. -/
def RunSystem : Type := String → InterpState

/-- Deliver one session event to the run that is subscribed to the session
emitting it; every other closure is untouched, since each subscription
owns its own state. -/
def dispatchEvent (p : SubscribeParams) (sys : RunSystem) (runId : String)
    (e : SessionEvent) : RunSystem :=
  fun r => if r = runId then stepEvent p (sys r) e else sys r

/-- The cancellation state of one run: the local `aborted` flag, and the
number of cooperative-stop requests issued to the session so far (one
`session.abort()` call per invocation of `abortRun`). -/
structure AbortState where
  aborted : Bool
  stopRequests : Nat
deriving DecidableEq

/-- `abortRun` from the source: set the flag and ask the session to stop.
All three triggers (the timeout handler, the external cancellation
signal listener `onAbort`, and the registered handle's `abort`) invoke
exactly this function. -/
def abortRun (s : AbortState) : AbortState :=
  { aborted := true, stopRequests := s.stopRequests + 1 }

/-- The externally observable steps of the tail of `runEmbeddedPiAgent`
(from the prompt call onward): the cleanup actions of its `finally`
block, then either the rethrown prompt error or the returned payload
(whose `aborted` flag is the run's flag). -/
inductive RunTailEvent (ε : Type) where
  | clearAbortTimer
  | clearAbortWarnTimer
  | unsubscribeStream
  | flushDebouncer
  | removeActiveRun
  | disposeSession
  | detachAbortListener
  | raiseError (e : ε)
  | returnPayload (aborted : Bool)
deriving DecidableEq

/-- The cleanup actions of the `finally` block, in source order: clear the
abort timer, clear the warning timer when it was armed, unsubscribe,
flush the debouncer, remove the registry entry when this run still owns
it, dispose the session, detach the abort listener. -/
def cleanupTrace (ε : Type) (warnTimerArmed registryOwned : Bool) :
    List (RunTailEvent ε) :=
  [RunTailEvent.clearAbortTimer] ++
    (if warnTimerArmed then [RunTailEvent.clearAbortWarnTimer] else []) ++
    [RunTailEvent.unsubscribeStream, RunTailEvent.flushDebouncer] ++
    (if registryOwned then [RunTailEvent.removeActiveRun] else []) ++
    [RunTailEvent.disposeSession, RunTailEvent.detachAbortListener]

/-- The tail of `runEmbeddedPiAgent`: the prompt outcome is captured into
`promptError` (never thrown directly), the `finally` cleanup always runs,
and afterwards the captured error is rethrown only when the run was not
aborted; otherwise the payload is returned carrying the `aborted` flag. -/
def runEmbeddedTail {ε : Type} (promptOutcome : Except ε Unit)
    (aborted warnTimerArmed registryOwned : Bool) : List (RunTailEvent ε) :=
  let promptError : Option ε :=
    match promptOutcome with
    | Except.error e => some e
    | Except.ok _ => none
  cleanupTrace ε warnTimerArmed registryOwned ++
    (match promptError, aborted with
     | some e, false => [RunTailEvent.raiseError e]
     | _, _ => [RunTailEvent.returnPayload aborted])

/-- One entry of the `replyItems` array assembled after the run: a text
(always a string in the source) and the media urls split out of it. -/
structure ReplyItem where
  text : String
  media : Option (List String)
deriving DecidableEq

/-- One entry of the returned `payloads` array. -/
structure PayloadItem where
  text : Option String
  mediaUrls : Option (List String)
  mediaUrl : Option String
deriving DecidableEq

/-- The `.map` step of the payload assembly: trim the text (empty becomes
absent), keep the media list only when non-empty, and take its first
entry as `mediaUrl`. -/
def toPayload (item : ReplyItem) : PayloadItem :=
  { text := if jsTrim item.text = "" then none else some (jsTrim item.text)
    mediaUrls :=
      match item.media with
      | some l => if l.length = 0 then none else some l
      | none => none
    mediaUrl :=
      match item.media with
      | some (u :: _) => some u
      | _ => none }

/-- JavaScript truthiness of an optional string field. -/
def jsTruthyOptStr : Option String → Bool
  | some s => s ≠ ""
  | none => false

/-- The `.filter` predicate of the payload assembly:
`p.text || p.mediaUrl || (p.mediaUrls && p.mediaUrls.length > 0)`. -/
def keepPayload (p : PayloadItem) : Bool :=
  jsTruthyOptStr p.text || jsTruthyOptStr p.mediaUrl ||
    (match p.mediaUrls with
     | some l => decide (0 < l.length)
     | none => false)

/-- The `payloads` array returned to the caller. -/
def buildPayloads (items : List ReplyItem) : List PayloadItem :=
  (items.map toPayload).filter keepPayload

/-- The `inlineToolResults` condition of `runEmbeddedPiAgent`: inline
tool summaries are added to the reply only when verbose mode is on, no
partial-reply observer and no tool-result observer were supplied, and at
least one tool record exists. -/
def inlineToolResultsFlag (verboseLevel : Option String)
    (hasOnPartialReply hasOnToolResult : Bool) (toolMetasCount : Nat) :
    Bool :=
  decide (verboseLevel = some "on") && !hasOnPartialReply &&
    !hasOnToolResult && decide (0 < toolMetasCount)

/-- The queue/abort handle a run registers in `ACTIVE_EMBEDDED_RUNS`:
`streaming` is what `isStreaming()` reports at lookup time. -/
structure QueueHandle where
  streaming : Bool
deriving DecidableEq

/-- `Map.prototype.get` on the active-run registry. -/
def lookupRun (reg : List (String × QueueHandle)) (sessionId : String) :
    Option QueueHandle :=
  match reg with
  | [] => none
  | (k, h) :: rest => if k = sessionId then some h else lookupRun rest sessionId

/-- `queueEmbeddedPiMessage` from the source: the boolean result, paired
with the message queued to the handle (`none` when nothing is queued). -/
def queueEmbeddedPiMessage (reg : List (String × QueueHandle))
    (sessionId text : String) : Bool × Option String :=
  match lookupRun reg sessionId with
  | none => (false, none)
  | some handle =>
    if handle.streaming = false then (false, none) else (true, some text)

/-- `abortEmbeddedPiRun` from the source: the boolean result, paired with
whether the handle's `abort` was invoked. -/
def abortEmbeddedPiRun (reg : List (String × QueueHandle))
    (sessionId : String) : Bool × Bool :=
  match lookupRun reg sessionId with
  | none => (false, false)
  | some _ => (true, true)

/-- No `<` occurs in the string: such text can never start a tag match of
any of the source's tag regexes. -/
def noLtChar (s : String) : Bool :=
  s.data.all (fun c => c != '<')

/-- `FINAL_START_RE.test` on a string. -/
def hasFinalOpenTag (s : String) : Bool :=
  containsMatch matchFinalStartTag s.data

/-- `FINAL_END_RE.test` on a string. -/
def hasFinalCloseTag (s : String) : Bool :=
  containsMatch matchFinalEndTag s.data

theorem noLtChar_iff {s : String} :
    noLtChar s = true ↔ ∀ c ∈ s.data, c ≠ '<' := by
  simp [noLtChar]

theorem matchTag_ne_lt {rs : Bool} {w : List Char} {ai : Bool} {c : Char}
    {cs : List Char} (h : c ≠ '<') : matchTag rs w ai (c :: cs) = none := by
  simp [matchTag, h]

theorem matchOpenThink_ne_lt {c : Char} {cs : List Char} (h : c ≠ '<') :
    matchOpenThink (c :: cs) = none := matchTag_ne_lt h

theorem matchCloseThink_ne_lt {c : Char} {cs : List Char} (h : c ≠ '<') :
    matchCloseThink (c :: cs) = none := matchTag_ne_lt h

theorem matchFinalStartTag_ne_lt {c : Char} {cs : List Char} (h : c ≠ '<') :
    matchFinalStartTag (c :: cs) = none := matchTag_ne_lt h

theorem matchFinalEndTag_ne_lt {c : Char} {cs : List Char} (h : c ≠ '<') :
    matchFinalEndTag (c :: cs) = none := matchTag_ne_lt h

theorem matchAnyThinkTag_ne_lt {c : Char} {cs : List Char} (h : c ≠ '<') :
    matchAnyThinkTag (c :: cs) = none := by
  simp [matchAnyThinkTag, h]

theorem findSplit_cons_none {m : List Char → Option (List Char)} {c : Char}
    {cs : List Char} (h : m (c :: cs) = none) :
    findSplit m (c :: cs) =
      (findSplit m cs).map (fun p => (c :: p.1, p.2)) := by
  rw [findSplit, h]
  cases hs : findSplit m cs with
  | none => rfl
  | some p => cases p; rfl

theorem findSplit_cons_some {m : List Char → Option (List Char)} {c : Char}
    {cs rest : List Char} (h : m (c :: cs) = some rest) :
    findSplit m (c :: cs) = some ([], rest) := by
  rw [findSplit, h]

theorem findSplit_append_clean {m : List Char → Option (List Char)}
    (hm : ∀ (c : Char) (cs : List Char), c ≠ '<' → m (c :: cs) = none) :
    ∀ (a r : List Char), (∀ c ∈ a, c ≠ '<') →
      findSplit m (a ++ r) =
        (findSplit m r).map (fun p => (a ++ p.1, p.2)) := by
  intro a
  induction a with
  | nil =>
    intro r _
    cases hs : findSplit m r with
    | none => simp [hs]
    | some p => cases p; simp [hs]
  | cons c a ih =>
    intro r ha
    have hc : c ≠ '<' := ha c (List.mem_cons_self c a)
    rw [List.cons_append, findSplit_cons_none (hm c (a ++ r) hc),
      ih r (fun x hx => ha x (List.mem_cons_of_mem c hx))]
    cases hs : findSplit m r with
    | none => rfl
    | some p => cases p; simp

theorem findSplit_clean_none {m : List Char → Option (List Char)}
    (hm : ∀ (c : Char) (cs : List Char), c ≠ '<' → m (c :: cs) = none)
    (l : List Char) (hl : ∀ c ∈ l, c ≠ '<') : findSplit m l = none := by
  induction l with
  | nil => rfl
  | cons c cs ih =>
    rw [findSplit_cons_none (hm c cs (hl c (List.mem_cons_self c cs))),
      ih (fun x hx => hl x (List.mem_cons_of_mem c hx))]
    rfl

theorem containsMatch_cons_none {m : List Char → Option (List Char)}
    {c : Char} {cs : List Char} (h : m (c :: cs) = none) :
    containsMatch m (c :: cs) = containsMatch m cs := by
  rw [containsMatch, containsMatch, findSplit_cons_none h]
  cases hs : findSplit m cs with
  | none => rfl
  | some p => rfl

theorem containsMatch_cons_some {m : List Char → Option (List Char)}
    {c : Char} {cs rest : List Char} (h : m (c :: cs) = some rest) :
    containsMatch m (c :: cs) = true := by
  rw [containsMatch, findSplit_cons_some h]
  rfl

theorem containsMatch_append_clean {m : List Char → Option (List Char)}
    (hm : ∀ (c : Char) (cs : List Char), c ≠ '<' → m (c :: cs) = none)
    {a : List Char} (ha : ∀ c ∈ a, c ≠ '<') (r : List Char) :
    containsMatch m (a ++ r) = containsMatch m r := by
  rw [containsMatch, containsMatch, findSplit_append_clean hm a r ha]
  cases hs : findSplit m r with
  | none => rfl
  | some p => rfl

theorem containsMatch_clean_false {m : List Char → Option (List Char)}
    (hm : ∀ (c : Char) (cs : List Char), c ≠ '<' → m (c :: cs) = none)
    {l : List Char} (hl : ∀ c ∈ l, c ≠ '<') : containsMatch m l = false := by
  rw [containsMatch, findSplit_clean_none hm l hl]
  rfl

theorem containsMatch_eq_false_iff {m : List Char → Option (List Char)}
    {l : List Char} : containsMatch m l = false ↔ findSplit m l = none := by
  rw [containsMatch]
  cases hs : findSplit m l <;> simp

theorem stripGo_clean :
    ∀ (l : List Char), (∀ c ∈ l, c ≠ '<') →
      ∀ inT, stripGo l inT 0 = if inT then [] else l := by
  intro l
  induction l with
  | nil => intro _ inT; cases inT <;> rfl
  | cons c cs ih =>
    intro hl inT
    have hc : c ≠ '<' := hl c (List.mem_cons_self c cs)
    rw [stripGo, matchAnyThinkTag_ne_lt hc]
    have ih2 := ih (fun x hx => hl x (List.mem_cons_of_mem c hx))
    cases inT with
    | true => simpa using ih2 true
    | false => simpa using ih2 false

theorem stripGo_append_clean :
    ∀ (a : List Char), (∀ c ∈ a, c ≠ '<') → ∀ (r : List Char) (inT : Bool),
      stripGo (a ++ r) inT 0 = (if inT then [] else a) ++ stripGo r inT 0 := by
  intro a
  induction a with
  | nil => intro _ r inT; cases inT <;> simp
  | cons c a ih =>
    intro ha r inT
    have hc : c ≠ '<' := ha c (List.mem_cons_self c a)
    rw [List.cons_append, stripGo, matchAnyThinkTag_ne_lt hc]
    have ih2 := ih (fun x hx => ha x (List.mem_cons_of_mem c hx)) r
    cases inT with
    | true => simpa using ih2 true
    | false => simpa using ih2 false

theorem stripGo_openThinkTag (r : List Char) (inT : Bool) :
    stripGo ('<' :: 't' :: 'h' :: 'i' :: 'n' :: 'k' :: '>' :: r) inT 0 =
      stripGo r true 0 := rfl

theorem stripGo_closeThinkTag (r : List Char) (inT : Bool) :
    stripGo ('<' :: '/' :: 't' :: 'h' :: 'i' :: 'n' :: 'k' :: '>' :: r) inT 0 =
      stripGo r false 0 := rfl

theorem matchOpenThink_at_tag (r : List Char) :
    matchOpenThink ('<' :: 't' :: 'h' :: 'i' :: 'n' :: 'k' :: '>' :: r) =
      some r := rfl

theorem matchCloseThink_at_openTag (r : List Char) :
    matchCloseThink ('<' :: 't' :: 'h' :: 'i' :: 'n' :: 'k' :: '>' :: r) =
      none := rfl

theorem matchCloseThink_at_closeTag (r : List Char) :
    matchCloseThink ('<' :: '/' :: 't' :: 'h' :: 'i' :: 'n' :: 'k' :: '>' :: r) =
      some r := rfl

theorem mk_data_eq (s : String) : String.mk s.data = s := rfl

theorem data_append_eq (x y : String) : (x ++ y).data = x.data ++ y.data := rfl

theorem closeThink_after_openTag (X : List Char) :
    containsMatch matchCloseThink
        ('<' :: 't' :: 'h' :: 'i' :: 'n' :: 'k' :: '>' :: X) =
      containsMatch matchCloseThink X := by
  rw [containsMatch_cons_none (matchCloseThink_at_openTag X)]
  have h6 : ('t' :: 'h' :: 'i' :: 'n' :: 'k' :: '>' :: X) =
      ['t', 'h', 'i', 'n', 'k', '>'] ++ X := rfl
  rw [h6,
    containsMatch_append_clean (fun _ _ h => matchCloseThink_ne_lt h)
      (by decide) X]

theorem stripChain_paired (A T B : List Char) (ha : ∀ c ∈ A, c ≠ '<')
    (ht : ∀ c ∈ T, c ≠ '<') (hb : ∀ c ∈ B, c ≠ '<') :
    stripGo
        (A ++ ('<' :: 't' :: 'h' :: 'i' :: 'n' :: 'k' :: '>' ::
          (T ++ ('<' :: '/' :: 't' :: 'h' :: 'i' :: 'n' :: 'k' :: '>' :: B))))
        false 0 = A ++ B := by
  rw [stripGo_append_clean A ha _ false, stripGo_openThinkTag,
    stripGo_append_clean T ht _ true, stripGo_closeThinkTag,
    stripGo_clean B hb false]
  simp

theorem stripChain_unpaired (A B : List Char) (ha : ∀ c ∈ A, c ≠ '<')
    (hb : ∀ c ∈ B, c ≠ '<') :
    stripGo (A ++ ('<' :: 't' :: 'h' :: 'i' :: 'n' :: 'k' :: '>' :: B))
        false 0 = A := by
  rw [stripGo_append_clean A ha _ false, stripGo_openThinkTag,
    stripGo_clean B hb true]
  simp

/-- Claim C1, counterexample.  The claim asserts that a buffer holding
only an unpaired thinking marker has just the stray marker stripped for
every value of `enforceFinalTag`.  With `enforceFinalTag = false` the
handler computes `stripThinkingSegments` alone, which treats the lone
open marker as the start of a thinking segment and drops everything after
it: the cleaned view of `"<think>partial... Hello"` is `""`, not the
preserved remainder (which stripping just the stray marker, as
`stripUnpairedThinkingTags` does, would yield). -/
theorem c1_counterexample :
    cleanedAssistantView false "<think>partial... Hello" = "" ∧
    stripUnpairedThinkingTags "<think>partial... Hello" = "partial... Hello" ∧
    ("partial... Hello" : String) ≠ "" ∧ ("Hello" : String) ≠ "" := by
  refine ⟨by decide, by decide, by decide, by decide⟩

/-- Claim C1, amended.  For every run and accumulated delta buffer: text
between paired thinking markers is removed under both values of
`enforceFinalTag`; but the tolerance for a lone unpaired open marker
holds only when `enforceFinalTag = true` (where
`stripUnpairedThinkingTags` strips the stray marker and the remaining
text is preserved).  When `enforceFinalTag = false` the lone open marker
starts a thinking segment and the rest of the buffer is dropped, so
`"<think>partial... Hello"` yields `"partial... Hello"` only under
`enforceFinalTag = true`. -/
theorem c1_amended (a t b : String) (ha : noLtChar a = true)
    (ht : noLtChar t = true) (hb : noLtChar b = true) :
    (∀ e : Bool,
      cleanedAssistantView e (a ++ "<think>" ++ t ++ "</think>" ++ b) =
        a ++ b) ∧
    cleanedAssistantView true (a ++ "<think>" ++ b) = a ++ b ∧
    cleanedAssistantView false (a ++ "<think>" ++ b) = a := by
  have ha' := noLtChar_iff.mp ha
  have ht' := noLtChar_iff.mp ht
  have hb' := noLtChar_iff.mp hb
  have hot : ("<think>" : String).data = ['<', 't', 'h', 'i', 'n', 'k', '>'] :=
    rfl
  have hct : ("</think>" : String).data =
      ['<', '/', 't', 'h', 'i', 'n', 'k', '>'] := rfl
  have hd1 : (a ++ "<think>" ++ t ++ "</think>" ++ b).data =
      a.data ++ ('<' :: 't' :: 'h' :: 'i' :: 'n' :: 'k' :: '>' ::
        (t.data ++ ('<' :: '/' :: 't' :: 'h' :: 'i' :: 'n' :: 'k' :: '>' ::
          b.data))) := by
    rw [data_append_eq, data_append_eq, data_append_eq, data_append_eq, hot,
      hct]
    simp
  have hd2 : (a ++ "<think>" ++ b).data =
      a.data ++ ('<' :: 't' :: 'h' :: 'i' :: 'n' :: 'k' :: '>' :: b.data) := by
    rw [data_append_eq, data_append_eq, hot]
    simp
  refine ⟨?_, ?_, ?_⟩
  · intro e
    have hOpenP :
        containsMatch matchOpenThink
          (a ++ "<think>" ++ t ++ "</think>" ++ b).data = true := by
      rw [hd1,
        containsMatch_append_clean (fun _ _ h => matchOpenThink_ne_lt h) ha',
        containsMatch_cons_some (matchOpenThink_at_tag _)]
    have hCloseP :
        containsMatch matchCloseThink
          (a ++ "<think>" ++ t ++ "</think>" ++ b).data = true := by
      rw [hd1,
        containsMatch_append_clean (fun _ _ h => matchCloseThink_ne_lt h) ha',
        closeThink_after_openTag,
        containsMatch_append_clean (fun _ _ h => matchCloseThink_ne_lt h) ht',
        containsMatch_cons_some (matchCloseThink_at_closeTag _)]
    have hstrip :
        stripThinkingSegments (a ++ "<think>" ++ t ++ "</think>" ++ b) =
          a ++ b := by
      rw [stripThinkingSegments, hd1, stripChain_paired _ _ _ ha' ht' hb']
      rfl
    cases e with
    | false => simpa [cleanedAssistantView] using hstrip
    | true =>
      have hu :
          stripUnpairedThinkingTags (a ++ "<think>" ++ t ++ "</think>" ++ b) =
            a ++ "<think>" ++ t ++ "</think>" ++ b := by
        simp only [stripUnpairedThinkingTags]
        rw [hOpenP, hCloseP]
        rfl
      simpa [cleanedAssistantView, hu] using hstrip
  · have hOpenU :
        containsMatch matchOpenThink (a ++ "<think>" ++ b).data = true := by
      rw [hd2,
        containsMatch_append_clean (fun _ _ h => matchOpenThink_ne_lt h) ha',
        containsMatch_cons_some (matchOpenThink_at_tag _)]
    have hCloseU :
        containsMatch matchCloseThink (a ++ "<think>" ++ b).data = false := by
      rw [hd2,
        containsMatch_append_clean (fun _ _ h => matchCloseThink_ne_lt h) ha',
        closeThink_after_openTag,
        containsMatch_clean_false (fun _ _ h => matchCloseThink_ne_lt h) hb']
    have hfs : findSplit matchOpenThink (a ++ "<think>" ++ b).data =
        some (a.data ++ [], b.data) := by
      rw [hd2,
        findSplit_append_clean (fun _ _ h => matchOpenThink_ne_lt h) _ _ ha',
        findSplit_cons_some (matchOpenThink_at_tag _)]
      rfl
    have hu : stripUnpairedThinkingTags (a ++ "<think>" ++ b) =
        String.mk (a.data ++ b.data) := by
      simp only [stripUnpairedThinkingTags]
      rw [hOpenU, hCloseU]
      show String.mk (replaceFirst matchOpenThink (a ++ "<think>" ++ b).data) =
        String.mk (a.data ++ b.data)
      rw [replaceFirst, hfs]
      simp
    have hs2 : stripThinkingSegments (String.mk (a.data ++ b.data)) =
        a ++ b := by
      rw [stripThinkingSegments]
      show String.mk (stripGo (a.data ++ b.data) false 0) = a ++ b
      rw [stripGo_append_clean a.data ha' _ false, stripGo_clean b.data hb'
        false]
      rfl
    simp [cleanedAssistantView, hu, hs2]
  · have hstrip2 : stripThinkingSegments (a ++ "<think>" ++ b) = a := by
      rw [stripThinkingSegments, hd2, stripChain_unpaired _ _ ha' hb']
    simpa [cleanedAssistantView] using hstrip2

/-- Claim C1, witness: the amended theorem applied to concrete strings,
covering paired removal and the unpaired tolerance under
`enforceFinalTag = true`. -/
theorem c1_witness :
    cleanedAssistantView true ("A" ++ "<think>" ++ "x" ++ "</think>" ++ "B") =
        "A" ++ "B" ∧
    cleanedAssistantView true ("A" ++ "<think>" ++ "B") = "A" ++ "B" ∧
    cleanedAssistantView false ("A" ++ "<think>" ++ "B") = "A" := by
  have h := c1_amended "A" "x" "B" (by decide) (by decide) (by decide)
  exact ⟨h.1 true, h.2.1, h.2.2⟩

/-- Claim C2, evaluation of the code at the failing input (code bug).
With `enforceFinalTag = true` and an accumulated text holding a lone
`<final>` marker, `extractFinalText` returns `none` — `sanitizeFinalText`
deletes the lone marker, after which no `<final>` remains to anchor the
extraction — and the handler falls back to the UNsanitized cleaned text,
so the finalized block keeps the stray marker: the stream
`"<final>Hi"` finalizes as `"<final>Hi"`, not `"Hi"`; symmetrically a
lone close marker is kept.  `sanitizeFinalText` itself does strip the
lone marker (last two conjuncts), but its result is discarded on this
path, contradicting its own stated purpose. -/
theorem c2_bug_eval :
    (runInterpreter ⟨"text_end", true, false, false, false, none⟩
        [SessionEvent.messageUpdate true "text_delta" "<final>Hi",
          SessionEvent.messageUpdate true "text_end" ""]).assistantTexts =
      ["<final>Hi"] ∧
    deriveNextText true "<final>Hi" = "<final>Hi" ∧
    deriveNextText true "Hi</final>" = "Hi</final>" ∧
    extractFinalText "<final>Hi" = none ∧
    sanitizeFinalText "<final>Hi" = "Hi" ∧
    sanitizeFinalText "Hi</final>" = "Hi" := by
  refine ⟨by decide, by decide, by decide, by decide, by decide, by decide⟩

theorem raise_not_mem_cleanup {ε : Type} (e : ε) (wa ro : Bool) :
    RunTailEvent.raiseError e ∉ cleanupTrace ε wa ro := by
  cases wa <;> cases ro <;> simp [cleanupTrace]

/-- Claim C3.  For every prompt outcome and every run: the trace of the
tail of `runEmbeddedPiAgent` is always the full cleanup sequence followed
by exactly one surfaced outcome (so cleanup precedes any error); a prompt
error is rethrown to the caller exactly when the prompt failed and the
aborted flag is false; and once `abortRun` has run (as the timeout
handler does before the prompt settles), the surfaced outcome is a
returned payload with `aborted = true` and no prompt-time error. -/
theorem c3_confirmed {ε : Type} (promptOutcome : Except ε Unit)
    (aborted warnTimerArmed registryOwned : Bool) (s : AbortState) :
    (∃ last,
      runEmbeddedTail promptOutcome aborted warnTimerArmed registryOwned =
        cleanupTrace ε warnTimerArmed registryOwned ++ [last]) ∧
    (∀ e : ε,
      RunTailEvent.raiseError e ∈
          runEmbeddedTail promptOutcome aborted warnTimerArmed registryOwned ↔
        promptOutcome = Except.error e ∧ aborted = false) ∧
    runEmbeddedTail promptOutcome (abortRun s).aborted warnTimerArmed
        registryOwned =
      cleanupTrace ε warnTimerArmed registryOwned ++
        [RunTailEvent.returnPayload true] := by
  refine ⟨?_, ?_, ?_⟩
  · cases promptOutcome <;> cases aborted <;>
      exact ⟨_, rfl⟩
  · intro e
    cases promptOutcome <;> cases aborted <;>
      simp [runEmbeddedTail, raise_not_mem_cleanup, eq_comm]
  · cases promptOutcome <;> rfl

/-- Claim C4.  A compaction-end event that signals a retry increments the
pending-retry counter and empties the whole assistant text accumulator
(finalized blocks, raw delta buffer, both dedupe values) and the tool
call records (tool-meta list and per-call-id cache); and delivering any
event to one run leaves the interpreter state of every other
concurrently subscribed run unchanged. -/
theorem c4_confirmed (p : SubscribeParams) (s : InterpState) (sys : RunSystem)
    (runId otherId : String) (e : SessionEvent) (hne : otherId ≠ runId) :
    (stepEvent p s (SessionEvent.compactionEnd true)).pendingCompactionRetry =
        s.pendingCompactionRetry + 1 ∧
    (stepEvent p s (SessionEvent.compactionEnd true)).assistantTexts = [] ∧
    (stepEvent p s (SessionEvent.compactionEnd true)).toolMetas = [] ∧
    (stepEvent p s (SessionEvent.compactionEnd true)).toolMetaById = [] ∧
    (stepEvent p s (SessionEvent.compactionEnd true)).deltaBuffer = "" ∧
    (stepEvent p s (SessionEvent.compactionEnd true)).lastStreamedAssistant =
        none ∧
    (stepEvent p s (SessionEvent.compactionEnd true)).lastBlockReplyText =
        none ∧
    (stepEvent p s (SessionEvent.compactionEnd true)).assistantTextBaseline =
        0 ∧
    dispatchEvent p sys runId e otherId = sys otherId := by
  refine ⟨rfl, rfl, rfl, rfl, rfl, rfl, rfl, rfl, ?_⟩
  simp [dispatchEvent, hne]

/-- Claim C4, witness: the reset and the isolation of a second run at
concrete inputs. -/
theorem c4_witness :
    (stepEvent ⟨"text_end", false, false, false, false, none⟩
        { initialInterpState with
          assistantTexts := ["x"], pendingCompactionRetry := 0 }
        (SessionEvent.compactionEnd true)).assistantTexts = [] ∧
    dispatchEvent ⟨"text_end", false, false, false, false, none⟩
        (fun _ => initialInterpState) "a" SessionEvent.agentStart "b" =
      (fun _ => initialInterpState) "b" := by
  have h := c4_confirmed ⟨"text_end", false, false, false, false, none⟩
    { initialInterpState with
      assistantTexts := ["x"], pendingCompactionRetry := 0 }
    (fun _ => initialInterpState) "a" "b" SessionEvent.agentStart (by decide)
  exact ⟨h.2.1, h.2.2.2.2.2.2.2.2⟩

/-- Claim C5, counterexample.  `abortRun` has no guard: calling it twice
issues two cooperative-stop requests to the session, so the observable
state (which includes the number of `session.abort()` invocations) after
two calls differs from the state after one. -/
theorem c5_counterexample :
    abortRun (abortRun ⟨false, 0⟩) ≠ abortRun ⟨false, 0⟩ := by decide

/-- Claim C5, amended.  The `aborted` flag is idempotent — a second call
leaves it exactly as the first call set it (true) — but each `abortRun`
invocation issues one more cooperative-stop request to the session, so
calling abort twice issues two stop requests, not one; only the flag
component of the observable state is unchanged by repeated calls. -/
theorem c5_amended (s : AbortState) :
    (abortRun (abortRun s)).aborted = (abortRun s).aborted ∧
    (abortRun s).aborted = true ∧
    (abortRun (abortRun s)).stopRequests = s.stopRequests + 2 ∧
    (abortRun s).stopRequests = s.stopRequests + 1 :=
  ⟨rfl, rfl, rfl, rfl⟩

/-- Claim C6.  With `enforceFinalTag = true`: for the stream
`"noise<final>Hi</final>more"` the derived block text, and the finalized
block pushed at the text-end boundary, is exactly the trimmed content
between the paired markers (`"Hi"`); and for every buffer whose cleaned
view contains no final marker at all, the derived block text defaults to
the full cleaned text (trimmed). -/
theorem c6_confirmed :
    deriveNextText true "noise<final>Hi</final>more" = "Hi" ∧
    (runInterpreter ⟨"text_end", true, false, false, false, none⟩
        [SessionEvent.messageUpdate true "text_delta"
            "noise<final>Hi</final>more",
          SessionEvent.messageUpdate true "text_end" ""]).assistantTexts =
      ["Hi"] ∧
    (∀ buf : String, hasFinalOpenTag (cleanedAssistantView true buf) = false →
      hasFinalCloseTag (cleanedAssistantView true buf) = false →
      deriveNextText true buf = jsTrim (cleanedAssistantView true buf)) := by
  refine ⟨by decide, by decide, ?_⟩
  intro buf h1 h2
  have h1' : containsMatch matchFinalStartTag
      (cleanedAssistantView true buf).data = false := h1
  have h2' : containsMatch matchFinalEndTag
      (cleanedAssistantView true buf).data = false := h2
  have hsan : sanitizeFinalText (cleanedAssistantView true buf) =
      cleanedAssistantView true buf := by
    simp only [sanitizeFinalText]
    rw [h1', h2']
    rfl
  have hfs : findSplit matchFinalStartTag
      (sanitizeFinalText (cleanedAssistantView true buf)).data = none := by
    rw [hsan]
    exact containsMatch_eq_false_iff.mp h1'
  have hx : extractFinalText (cleanedAssistantView true buf) = none := by
    simp only [extractFinalText]
    rw [hfs]
  have hd : deriveNextText true buf =
      match extractFinalText (cleanedAssistantView true buf) with
      | some t => jsTrim t
      | none => jsTrim (cleanedAssistantView true buf) := rfl
  rw [hd, hx]

/-- Claim C6, witness: the default case of the theorem at a concrete
marker-free buffer. -/
theorem c6_witness :
    deriveNextText true "plain" = jsTrim (cleanedAssistantView true "plain") :=
  c6_confirmed.2.2 "plain" (by decide) (by decide)

/-- Claim C7, counterexample.  The claim says items other than text items
over budget and image items with a non-empty data field pass through
unchanged, but the sanitizer rewrites EVERY image item: an image item
with no binary data at all (or with empty data) still has its data field
deleted and an `omitted: true` marker added, so it does not pass through
unchanged. -/
theorem c7_counterexample :
    sanitizeItem ⟨"image", none, none, none, false, []⟩ =
      ⟨"image", none, none, none, true, []⟩ ∧
    sanitizeItem ⟨"image", none, none, none, false, []⟩ ≠
      ⟨"image", none, none, none, false, []⟩ ∧
    sanitizeToolResult ⟨some [⟨"image", none, some "", none, false, []⟩], []⟩ ≠
      ⟨some [⟨"image", none, some "", none, false, []⟩], []⟩ := by
  refine ⟨by decide, by decide, by decide⟩

/-- Claim C7, amended.  Text items are truncated to the 8000-character
budget with the truncation marker appended exactly when they exceed it;
EVERY image item (not only those with non-empty data) has its data field
removed and the omitted marker set, with the byte count present exactly
when the data field held a non-empty string; all other items, and the
remaining fields of every item, pass through unchanged, and the sanitizer
maps the `content` array leaving the rest of the result object as is. -/
theorem c7_amended (it : ContentItem) (r : ToolResult) :
    (∀ t : String, it.type = "text" → it.text = some t →
      sanitizeItem it = { it with text := some (truncateToolText t) }) ∧
    (∀ t : String, t.data.length ≤ TOOL_RESULT_MAX_CHARS →
      truncateToolText t = t) ∧
    (∀ t : String, TOOL_RESULT_MAX_CHARS < t.data.length →
      truncateToolText t =
        String.mk (t.data.take TOOL_RESULT_MAX_CHARS) ++ "\n…(truncated)…") ∧
    (it.type = "image" →
      sanitizeItem it =
        { it with
          data := none
          bytes := match it.data with
            | some d => if d = "" then none else some d.data.length
            | none => none
          omitted := true }) ∧
    (it.type ≠ "text" → it.type ≠ "image" → sanitizeItem it = it) ∧
    (it.type = "text" → it.text = none → sanitizeItem it = it) ∧
    (r.content = none → sanitizeToolResult r = r) ∧
    (∀ items, r.content = some items →
      sanitizeToolResult r = { r with content := some (items.map sanitizeItem) }) := by
  refine ⟨?_, ?_, ?_, ?_, ?_, ?_, ?_, ?_⟩
  · intro t h1 h2
    simp [sanitizeItem, h1, h2]
  · intro t h
    simp only [truncateToolText]
    rw [if_pos h]
  · intro t h
    simp only [truncateToolText]
    rw [if_neg (by omega)]
  · intro h
    simp [sanitizeItem, h]
  · intro h1 h2
    simp [sanitizeItem, h1, h2]
  · intro h1 h2
    simp [sanitizeItem, h1, h2]
  · intro h
    simp [sanitizeToolResult, h]
  · intro items h
    simp [sanitizeToolResult, h]

/-- Claim C7, witness: the amended theorem applied to a concrete image
item with non-empty data and to a short text. -/
theorem c7_witness :
    sanitizeItem ⟨"image", none, some "ab", none, false, [("mimeType", "png")]⟩ =
      ⟨"image", none, none, some 2, true, [("mimeType", "png")]⟩ ∧
    truncateToolText "ab" = "ab" := by
  have h := c7_amended
    ⟨"image", none, some "ab", none, false, [("mimeType", "png")]⟩ ⟨none, []⟩
  exact ⟨h.2.2.2.1 rfl, h.2.1 "ab" (by decide)⟩

/-- Claim C8, counterexample.  The claim states inline tool-result
summaries are included if and only if verbose mode is on, no tool-result
observer was supplied, and a tool record exists; but with verbose on, no
tool-result observer, one tool record, and a PARTIAL-reply observer
supplied, the source computes the inclusion flag as false — the code
additionally requires that no partial-reply observer was supplied. -/
theorem c8_counterexample :
    inlineToolResultsFlag (some "on") true false 1 = false := by decide

/-- Claim C8, amended.  Inline tool-result summaries are selected for the
reply payload if and only if verbose mode is on, NEITHER a partial-reply
observer NOR a tool-result observer was supplied, and at least one tool
record exists. -/
theorem c8_amended (v : Option String) (hp ht : Bool) (n : Nat) :
    inlineToolResultsFlag v hp ht n = true ↔
      v = some "on" ∧ hp = false ∧ ht = false ∧ 0 < n := by
  simp [inlineToolResultsFlag, Bool.and_eq_true, decide_eq_true_iff,
    Bool.not_eq_true', and_assoc]

/-- Claim C9.  Every payload item surviving the final filter carries
either non-empty (trimmed) text or at least one media reference; any text
a surviving item carries is the trimmed text of one of the candidate
items; and a candidate item with neither trimmed text nor any media
reference fails the filter and is dropped. -/
theorem c9_confirmed (items : List ReplyItem) :
    (∀ p ∈ buildPayloads items,
      (∃ t, p.text = some t ∧ t ≠ "") ∨
        (∃ l, p.mediaUrls = some l ∧ 0 < l.length)) ∧
    (∀ p ∈ buildPayloads items, ∀ t, p.text = some t →
      ∃ it ∈ items, t = jsTrim it.text) ∧
    (∀ it ∈ items, jsTrim it.text = "" →
      (it.media = none ∨ it.media = some []) →
      keepPayload (toPayload it) = false) := by
  refine ⟨?_, ?_, ?_⟩
  · intro p hp
    rw [buildPayloads, List.mem_filter] at hp
    obtain ⟨hmem, hkeep⟩ := hp
    rw [List.mem_map] at hmem
    obtain ⟨it, _, rfl⟩ := hmem
    by_cases htr : jsTrim it.text = ""
    · rcases hm : it.media with _ | l
      · rw [keepPayload] at hkeep
        simp [toPayload, jsTruthyOptStr, htr, hm] at hkeep
      · rcases l with _ | ⟨u, us⟩
        · rw [keepPayload] at hkeep
          simp [toPayload, jsTruthyOptStr, htr, hm] at hkeep
        · right
          refine ⟨u :: us, ?_, by simp⟩
          simp [toPayload, hm]
    · left
      exact ⟨jsTrim it.text, by simp [toPayload, htr], htr⟩
  · intro p hp t ht
    rw [buildPayloads, List.mem_filter] at hp
    obtain ⟨hmem, _⟩ := hp
    rw [List.mem_map] at hmem
    obtain ⟨it, hin, rfl⟩ := hmem
    refine ⟨it, hin, ?_⟩
    by_cases htr : jsTrim it.text = ""
    · simp [toPayload, htr] at ht
    · simp [toPayload, htr] at ht
      exact ht.symm
  · intro it _ htr hmedia
    rcases hmedia with hm | hm <;>
      simp [keepPayload, toPayload, jsTruthyOptStr, htr, hm]

/-- Claim C9, witness: the invariant of the theorem at a concrete
payload surviving from a one-item candidate list. -/
theorem c9_witness :
    (∃ t, (toPayload ⟨" hi ", none⟩).text = some t ∧ t ≠ "") ∨
      (∃ l, (toPayload ⟨" hi ", none⟩).mediaUrls = some l ∧ 0 < l.length) :=
  (c9_confirmed [⟨" hi ", none⟩]).1 (toPayload ⟨" hi ", none⟩) (by decide)

/-- Claim C10.  `queueEmbeddedPiMessage` returns true and queues the
message exactly when a handle is registered for the session id and it
reports the session streaming, and otherwise returns false with nothing
queued; `abortEmbeddedPiRun` returns false with no effect when no handle
is registered, and returns true having invoked the handle's abort when
one is. -/
theorem c10_confirmed (reg : List (String × QueueHandle))
    (sessionId text : String) :
    ((queueEmbeddedPiMessage reg sessionId text).1 = true ↔
      ∃ h, lookupRun reg sessionId = some h ∧ h.streaming = true) ∧
    ((queueEmbeddedPiMessage reg sessionId text).1 = true →
      (queueEmbeddedPiMessage reg sessionId text).2 = some text) ∧
    ((queueEmbeddedPiMessage reg sessionId text).1 = false →
      (queueEmbeddedPiMessage reg sessionId text).2 = none) ∧
    ((abortEmbeddedPiRun reg sessionId).1 = true ↔
      ∃ h, lookupRun reg sessionId = some h) ∧
    ((abortEmbeddedPiRun reg sessionId).1 = true →
      (abortEmbeddedPiRun reg sessionId).2 = true) ∧
    ((abortEmbeddedPiRun reg sessionId).1 = false →
      (abortEmbeddedPiRun reg sessionId).2 = false) := by
  rcases hl : lookupRun reg sessionId with _ | h
  · simp [queueEmbeddedPiMessage, abortEmbeddedPiRun, hl]
  · rcases h with ⟨st⟩
    cases st <;>
      simp [queueEmbeddedPiMessage, abortEmbeddedPiRun, hl]

/-- Claim C10, witness: the theorem applied to a registry with one
streaming handle and to an empty registry. -/
theorem c10_witness :
    (queueEmbeddedPiMessage [("s", ⟨true⟩)] "s" "msg").2 = some "msg" ∧
    (abortEmbeddedPiRun [] "s").2 = false := by
  refine ⟨(c10_confirmed [("s", ⟨true⟩)] "s" "msg").2.1 (by decide), ?_⟩
  exact (c10_confirmed [] "s" "msg").2.2.2.2.2 (by decide)
